import Mathlib

/-!
Shallow embedding of the Jawa repository core:
src/jawa/core/constants.py (constant pool and constant variants) and
src/jawa/attributes/annotations.py (ElementValue and annotation codec).
Byte buffers are lists of naturals; machine integers are Nat/Int with
explicit two's-complement conversion where the source unpacks signed
fields; fallible operations return Option or Except.
-/

namespace Jawa

/-- Closed set of constant-pool record variants.  Utf8 entries are stored
unwrapped (the source stores the raw byte string, no wrapper object);
Float and Double keep their raw big-endian IEEE bytes. -/
inductive Constant : Type where
  | utf8 (bytes : List Nat)
  | classRef (nameIndex : Nat)
  | stringRef (stringIndex : Nat)
  | fieldRef (classIndex nameAndTypeIndex : Nat)
  | methodRef (classIndex nameAndTypeIndex : Nat)
  | interfaceMethodRef (classIndex nameAndTypeIndex : Nat)
  | integer (value : Int)
  | floatC (raw : List Nat)
  | longC (value : Int)
  | doubleC (raw : List Nat)
  | nameAndType (nameIndex descriptorIndex : Nat)
deriving DecidableEq

/-- Error raised by ConstantPool.insert when the explicit index is below 1
(the source raises ValueError; the spec taxonomy calls it MalformedIndex). -/
inductive PoolError : Type where
  | malformedIndex
deriving DecidableEq

/-- The constant pool: the dictionary self.pool of ConstantPool, as an
association list from integer slot index to stored constant. -/
structure ConstantPool : Type where
  entries : List (Int × Constant)
deriving DecidableEq

/-- A freshly constructed, empty constant pool. -/
def poolEmpty : ConstantPool := ⟨[]⟩

/-- Dictionary store self.pool[index] = constant: any existing binding for
the key is replaced. -/
def poolSetL (l : List (Int × Constant)) (i : Int) (c : Constant) :
    List (Int × Constant) :=
  l.filter (fun e => e.1 != i) ++ [(i, c)]

/-- Pool update, lifted to the ConstantPool structure. -/
def ConstantPool.set (p : ConstantPool) (i : Int) (c : Constant) : ConstantPool :=
  ⟨poolSetL p.entries i c⟩

/-- ConstantPool.get: returns the constant at index, or the caller-supplied
default if absent (dict.get never raises on a missing key). -/
def ConstantPool.get (p : ConstantPool) (index : Int) (default : Option Constant) :
    Option Constant :=
  match p.entries.find? (fun e => e.1 == index) with
  | some e => some e.2
  | none => default

/-- Ascending insertion of an integer into a sorted list. -/
def insertSorted (x : Int) : List Int → List Int
  | [] => [x]
  | y :: ys => if x ≤ y then x :: y :: ys else y :: insertSorted x ys

/-- Ascending insertion sort, modelling existing.sort() on the key list. -/
def sortInts : List Int → List Int
  | [] => []
  | x :: xs => insertSorted x (sortInts xs)

/-- The gap-scanning loop of ConstantPool.insert: last starts at the
smallest stored index; each stored index i with i less or equal last + 1
advances last to i, and the first larger gap stops the scan. -/
def scanLast (last : Int) : List Int → Int
  | [] => last
  | i :: rest => if i > last + 1 then last else scanLast i rest

/-- The index chosen by the auto-allocating branch of ConstantPool.insert:
on an empty pool the source stores at 1 directly; otherwise it sorts the
stored keys and scans from the smallest stored key for the first gap,
storing at last + 1 (an empty key list also yields 1 here, matching the
separate empty-pool branch of the source). -/
def ConstantPool.allocIndex (p : ConstantPool) : Int :=
  match sortInts (p.entries.map Prod.fst) with
  | [] => 1
  | e :: es => scanLast e (e :: es) + 1

/-- ConstantPool.insert: with an explicit index it validates index ≥ 1 and
overwrites unconditionally; with index omitted it stores at the
auto-allocated index.  Returns the possibly-updated pool together with the
returned index or the raised error. -/
def ConstantPool.insert (p : ConstantPool) (c : Constant) :
    Option Int → ConstantPool × Except PoolError Int
  | some index =>
    if index < 1 then (p, .error .malformedIndex)
    else (p.set index c, .ok index)
  | none => (p.set p.allocIndex c, .ok p.allocIndex)

/-- ConstantClass.name: resolves the stored name index through the owning
pool at access time, with the default None. -/
def constantClassName (pool : ConstantPool) (ni : Int) : Option Constant :=
  pool.get ni none

/-- Runs a sequence of insert calls starting from a given pool; an insert
that raises aborts the rest of the sequence, leaving the pool as it was. -/
def runInserts : ConstantPool → List (Constant × Option Int) → ConstantPool
  | p, [] => p
  | p, (c, idx) :: rest =>
    match p.insert c idx with
    | (p2, .ok _) => runInserts p2 rest
    | (_, .error _) => p

/-- The indices actually returned (hence stored) by a sequence of insert
calls, up to the first failing insert. -/
def storedIndices : ConstantPool → List (Constant × Option Int) → List Int
  | _, [] => []
  | p, (c, idx) :: rest =>
    match p.insert c idx with
    | (p2, .ok i) => i :: storedIndices p2 rest
    | (_, .error _) => []

/-- Big-endian unsigned 16-bit value of two bytes. -/
def u16be (b0 b1 : Nat) : Nat := b0 * 256 + b1

/-- Signed 32-bit big-endian value, two's complement. -/
def int32OfBytes (b0 b1 b2 b3 : Nat) : Int :=
  let u := ((b0 * 256 + b1) * 256 + b2) * 256 + b3
  if u < 2 ^ 31 then (u : Int) else (u : Int) - 2 ^ 32

/-- Signed 64-bit big-endian value, two's complement. -/
def int64OfBytes (b0 b1 b2 b3 b4 b5 b6 b7 : Nat) : Int :=
  let u := ((((((b0 * 256 + b1) * 256 + b2) * 256 + b3) * 256 + b4) * 256 +
    b5) * 256 + b6) * 256 + b7
  if u < 2 ^ 63 then (u : Int) else (u : Int) - 2 ^ 64

/-- Test for the eleven constant-pool tags that have a dispatch branch in
ConstantPool load_from_io. -/
def recognizedConstantTag (t : Nat) : Bool :=
  t == 1 || t == 3 || t == 4 || t == 5 || t == 6 || t == 7 || t == 8 ||
    t == 9 || t == 10 || t == 11 || t == 12

/-- Reading of one recognized constant record after its tag byte, with the
tag branches in source order (1, 7, 8, 3, 4, 5, 6, 12, 9, 10, 11).
Returns the constant, the remaining stream, and whether the record is
double width (Long or Double, which makes the loop consume the next slot
index).  Reads that feed struct.unpack fail on a short buffer; the raw
Utf8 content read stores whatever bytes remain, as io.read does at end of
input. -/
def readConstant (tag : Nat) (s1 : List Nat) :
    Option (Constant × List Nat × Bool) :=
  if tag = 1 then
    match s1 with
    | l0 :: l1 :: s2 =>
      some (.utf8 (s2.take (u16be l0 l1)), s2.drop (u16be l0 l1), false)
    | _ => none
  else if tag = 7 then
    match s1 with
    | a :: b :: s2 => some (.classRef (u16be a b), s2, false)
    | _ => none
  else if tag = 8 then
    match s1 with
    | a :: b :: s2 => some (.stringRef (u16be a b), s2, false)
    | _ => none
  else if tag = 3 then
    match s1 with
    | a :: b :: c :: d :: s2 => some (.integer (int32OfBytes a b c d), s2, false)
    | _ => none
  else if tag = 4 then
    match s1 with
    | a :: b :: c :: d :: s2 => some (.floatC [a, b, c, d], s2, false)
    | _ => none
  else if tag = 5 then
    match s1 with
    | a :: b :: c :: d :: e :: f :: g :: k :: s2 =>
      some (.longC (int64OfBytes a b c d e f g k), s2, true)
    | _ => none
  else if tag = 6 then
    match s1 with
    | a :: b :: c :: d :: e :: f :: g :: k :: s2 =>
      some (.doubleC [a, b, c, d, e, f, g, k], s2, true)
    | _ => none
  else if tag = 12 then
    match s1 with
    | a :: b :: c :: d :: s2 =>
      some (.nameAndType (u16be a b) (u16be c d), s2, false)
    | _ => none
  else if tag = 9 then
    match s1 with
    | a :: b :: c :: d :: s2 => some (.fieldRef (u16be a b) (u16be c d), s2, false)
    | _ => none
  else if tag = 10 then
    match s1 with
    | a :: b :: c :: d :: s2 =>
      some (.methodRef (u16be a b) (u16be c d), s2, false)
    | _ => none
  else if tag = 11 then
    match s1 with
    | a :: b :: c :: d :: s2 =>
      some (.interfaceMethodRef (u16be a b) (u16be c d), s2, false)
    | _ => none
  else none

/-- The per-slot loop of ConstantPool load_from_io.  A recognized tag
stores its decoded record at the current slot; a double-width record then
pulls the next slot index from the iterator (failing, like the uncaught
StopIteration of the source, when the iterator is exhausted).  A tag
matching no branch stores nothing and the loop moves on to the next slot:
the source if chain has no else branch. -/
def loadLoop : ConstantPool → List Int → List Nat → Option ConstantPool
  | p, [], _ => some p
  | p, index :: rest, s =>
    match s with
    | [] => none
    | tag :: s1 =>
      if recognizedConstantTag tag then
        match readConstant tag s1 with
        | none => none
        | some (c, s2, wide) =>
          if wide then
            match rest with
            | [] => none
            | _ :: rest2 => loadLoop (p.set index c) rest2 s2
          else loadLoop (p.set index c) rest s2
      else loadLoop p rest s1

/-- ConstantPool load_from_io: reads the big-endian 16-bit declared count
and iterates the slot numbers 1 to count - 1 over the remaining stream;
bytes left after the last slot are ignored, as in the source. -/
def ConstantPool.loadFromIo (p : ConstantPool) (s : List Nat) :
    Option ConstantPool :=
  match s with
  | c0 :: c1 :: s2 =>
    loadLoop p ((List.range (u16be c0 c1 - 1)).map (fun k => ((k : Int) + 1))) s2
  | _ => none

/-- Looking up the overwritten key after a dictionary store finds the new
binding. -/
theorem find_poolSetL_self (l : List (Int × Constant)) (i : Int) (c : Constant) :
    (poolSetL l i c).find? (fun e => e.1 == i) = some (i, c) := by
  induction l with
  | nil =>
    simp only [poolSetL, List.filter_nil, List.nil_append]
    exact List.find?_cons_of_pos _ (by simp)
  | cons e l ih =>
    simp only [poolSetL] at ih ⊢
    by_cases h : e.1 = i
    · rw [List.filter_cons, if_neg (by simp [h])]
      exact ih
    · rw [List.filter_cons, if_pos (by simp [h]), List.cons_append,
        List.find?_cons_of_neg _ (by simp [h])]
      exact ih

/-- Looking up any other key after a dictionary store is unaffected. -/
theorem find_poolSetL_other (l : List (Int × Constant)) (i j : Int) (c : Constant)
    (h : j ≠ i) :
    (poolSetL l i c).find? (fun e => e.1 == j) = l.find? (fun e => e.1 == j) := by
  induction l with
  | nil =>
    simp only [poolSetL, List.filter_nil, List.nil_append]
    rw [List.find?_cons_of_neg _ (by simp [Ne.symm h])]
  | cons e l ih =>
    simp only [poolSetL] at ih ⊢
    by_cases he : e.1 = i
    · have hej : ¬ e.1 = j := by rw [he]; exact Ne.symm h
      rw [List.filter_cons, if_neg (by simp [he]),
        List.find?_cons_of_neg _ (by simp [hej])]
      exact ih
    · by_cases hj : e.1 = j
      · rw [List.filter_cons, if_pos (by simp [he]), List.cons_append,
          List.find?_cons_of_pos _ (by simp [hj]),
          List.find?_cons_of_pos _ (by simp [hj])]
      · rw [List.filter_cons, if_pos (by simp [he]), List.cons_append,
          List.find?_cons_of_neg _ (by simp [hj]),
          List.find?_cons_of_neg _ (by simp [hj])]
        exact ih

/-- Reading back the slot just written returns the written constant. -/
theorem get_set_self (p : ConstantPool) (i : Int) (c : Constant) (d : Option Constant) :
    (p.set i c).get i d = some c := by
  simp [ConstantPool.get, ConstantPool.set, find_poolSetL_self]

/-- Writing one slot leaves reads of every other slot unchanged. -/
theorem get_set_other (p : ConstantPool) (i j : Int) (c : Constant) (d : Option Constant)
    (h : j ≠ i) :
    (p.set i c).get j d = p.get j d := by
  simp [ConstantPool.get, ConstantPool.set, find_poolSetL_other _ _ _ _ h]

/-- A successful insert stores the constant exactly at the returned index. -/
theorem insert_ok_set (p : ConstantPool) (c : Constant) (idx : Option Int)
    (p2 : ConstantPool) (i : Int) (h : p.insert c idx = (p2, Except.ok i)) :
    p2 = p.set i c := by
  cases idx with
  | some k =>
    by_cases hk : k < 1
    · simp [ConstantPool.insert, hk] at h
    · simp only [ConstantPool.insert, if_neg hk, Prod.mk.injEq,
        Except.ok.injEq] at h
      rw [← h.2]
      exact h.1.symm
  | none =>
    simp only [ConstantPool.insert, Prod.mk.injEq, Except.ok.injEq] at h
    rw [← h.2]
    exact h.1.symm

/-- A slot whose index is never returned by any insert of a run is left
unchanged by the whole run. -/
theorem runInserts_get_not_stored (ops : List (Constant × Option Int)) :
    ∀ (p : ConstantPool) (i : Int) (d : Option Constant),
      i ∉ storedIndices p ops → (runInserts p ops).get i d = p.get i d := by
  induction ops with
  | nil => intro p i d _; rfl
  | cons op rest ih =>
    intro p i d hmem
    obtain ⟨c, idx⟩ := op
    cases hins : p.insert c idx with
    | mk p2 r =>
      cases r with
      | error e =>
        simp only [runInserts, storedIndices, hins]
      | ok j =>
        simp only [runInserts, storedIndices, hins] at hmem ⊢
        rw [List.mem_cons, not_or] at hmem
        obtain ⟨hij, hrest⟩ := hmem
        rw [ih p2 i d hrest, insert_ok_set p c idx p2 j hins,
          get_set_other _ _ _ _ _ hij]

/-- C1: the claim says an auto-allocating insert always returns the first
free slot scanning from 1, returning 1 on an empty pool and 1, 2, 3 on
three successive inserts.  The source instead starts its gap scan at the
smallest currently stored index: on a pool whose only stored index is 2,
slot 1 is free yet the insert returns 3.  The empty-pool and 1, 2, 3
sub-properties do hold.  This theorem evaluates the code at the failing
input and at the sequence from the empty pool. -/
theorem c1_auto_insert_scan_bug :
    ((poolEmpty.insert (Constant.integer 10) (some 2)).1.get 1 none = none) ∧
    (((poolEmpty.insert (Constant.integer 10) (some 2)).1.insert
        (Constant.integer 11) none).2 = Except.ok 3) ∧
    ((poolEmpty.insert (Constant.integer 20) none).2 = Except.ok 1) ∧
    (((poolEmpty.insert (Constant.integer 20) none).1.insert
        (Constant.integer 21) none).2 = Except.ok 2) ∧
    ((((poolEmpty.insert (Constant.integer 20) none).1.insert
        (Constant.integer 21) none).1.insert (Constant.integer 22) none).2 =
      Except.ok 3) :=
  ⟨rfl, rfl, rfl, rfl, rfl⟩

/-- C7: insert with an explicit index below 1 fails with MalformedIndex and
leaves the pool unchanged; with index at least 1 it returns the index and
overwrites the slot unconditionally, so get returns the new constant, a
second insert at the same index wins, and a previously constructed
ConstantClass reference holding that numeric index now resolves to the
newly inserted value. -/
theorem c7_insert_explicit (p : ConstantPool) (c c2 : Constant) (i : Int) :
    (i < 1 → p.insert c (some i) = (p, Except.error PoolError.malformedIndex)) ∧
    (1 ≤ i →
      (p.insert c (some i)).2 = Except.ok i ∧
      (p.insert c (some i)).1.get i none = some c ∧
      ((p.insert c (some i)).1.insert c2 (some i)).1.get i none = some c2 ∧
      constantClassName (p.insert c (some i)).1 i = some c) := by
  constructor
  · intro h
    simp [ConstantPool.insert, h]
  · intro h
    have hnot : ¬ i < 1 := not_lt.mpr h
    have hfst : (p.insert c (some i)).1 = p.set i c := by
      simp [ConstantPool.insert, hnot]
    refine ⟨?_, ?_, ?_, ?_⟩
    · simp [ConstantPool.insert, hnot]
    · rw [hfst]
      exact get_set_self p i c none
    · have hfst2 : ((p.set i c).insert c2 (some i)).1 = (p.set i c).set i c2 := by
        simp [ConstantPool.insert, hnot]
      rw [hfst, hfst2]
      exact get_set_self _ i c2 none
    · show (p.insert c (some i)).1.get i none = some c
      rw [hfst]
      exact get_set_self p i c none

/-- Witness for C7 at concrete inputs: index 0 raises MalformedIndex, and
after inserting at index 5 the slot reads back the inserted constant. -/
theorem c7_insert_explicit_witness :
    poolEmpty.insert (Constant.integer 1) (some 0) =
      (poolEmpty, Except.error PoolError.malformedIndex) ∧
    (poolEmpty.insert (Constant.integer 1) (some 5)).1.get 5 none =
      some (Constant.integer 1) :=
  ⟨(c7_insert_explicit poolEmpty (Constant.integer 1) (Constant.integer 2) 0).1
      (by decide),
   ((c7_insert_explicit poolEmpty (Constant.integer 1) (Constant.integer 2) 5).2
      (by decide)).2.1⟩

/-- C9: for any pool state reached by a run of inserts from the empty pool,
get on an index never inserted returns the caller-supplied default, and
get has no failure outcome at all. -/
theorem c9_get_default_never_inserted (ops : List (Constant × Option Int))
    (i : Int) (d : Option Constant) (h : i ∉ storedIndices poolEmpty ops) :
    (runInserts poolEmpty ops).get i d = d := by
  rw [runInserts_get_not_stored ops poolEmpty i d h]
  rfl

/-- Witness for C9: after inserting at index 5 and one auto-allocation,
index 3 was never inserted and get returns the supplied default. -/
theorem c9_get_default_never_inserted_witness :
    (3 : Int) ∉ storedIndices poolEmpty
      [(Constant.integer 7, some 5), (Constant.integer 8, none)] ∧
    (runInserts poolEmpty
      [(Constant.integer 7, some 5), (Constant.integer 8, none)]).get 3
        (some (Constant.integer 9)) = some (Constant.integer 9) :=
  ⟨by decide,
   c9_get_default_never_inserted
     [(Constant.integer 7, some 5), (Constant.integer 8, none)] 3
     (some (Constant.integer 9)) (by decide)⟩

/-- C10: insert with an explicit index at least 1 returns that index and
modifies only that slot; every other slot reads the same before and after,
for every default. -/
theorem c10_insert_frame (p : ConstantPool) (c : Constant) (i : Int) (h : 1 ≤ i) :
    (p.insert c (some i)).2 = Except.ok i ∧
    ∀ (j : Int) (d : Option Constant), j ≠ i →
      (p.insert c (some i)).1.get j d = p.get j d := by
  have hnot : ¬ i < 1 := not_lt.mpr h
  constructor
  · simp [ConstantPool.insert, hnot]
  · intro j d hj
    simp only [ConstantPool.insert, if_neg hnot]
    exact get_set_other p i j c d hj

/-- Witness for C10: inserting at index 2 of a one-entry pool returns 2 and
leaves the read of slot 1 unchanged. -/
theorem c10_insert_frame_witness :
    ((⟨[(1, Constant.integer 4)]⟩ : ConstantPool).insert
      (Constant.integer 5) (some 2)).2 = Except.ok 2 ∧
    ((⟨[(1, Constant.integer 4)]⟩ : ConstantPool).insert
      (Constant.integer 5) (some 2)).1.get 1 none =
      (⟨[(1, Constant.integer 4)]⟩ : ConstantPool).get 1 none :=
  ⟨(c10_insert_frame ⟨[(1, Constant.integer 4)]⟩ (Constant.integer 5) 2
      (by decide)).1,
   (c10_insert_frame ⟨[(1, Constant.integer 4)]⟩ (Constant.integer 5) 2
      (by decide)).2 1 none (by decide)⟩

/-- C3 counterexample: the claim says an unrecognized 1-byte tag fails the
decode with InvalidConstantTag.  Decoding a stream with declared count 2
whose single slot carries the unrecognized tag 2 succeeds, returning the
pool unchanged: the source tag dispatch has no else branch and raises
nothing. -/
theorem c3_unknown_tag_decode_succeeds :
    poolEmpty.loadFromIo [0, 2, 2] = some poolEmpty := rfl

/-- C3 amended: during constant-pool decode, a 1-byte tag that is not one
of the eleven recognized tags stores no constant for its slot and decoding
silently continues with the next declared index; a stream of only
unrecognized tag bytes decodes successfully, leaving the pool unchanged. -/
theorem c3_unrecognized_tag_skipped (p : ConstantPool) (idxs : List Int)
    (ts : List Nat) (hlen : idxs.length = ts.length)
    (htags : ∀ t ∈ ts, recognizedConstantTag t = false) :
    loadLoop p idxs ts = some p := by
  induction idxs generalizing p ts with
  | nil =>
    cases ts with
    | nil => rfl
    | cons t ts => simp at hlen
  | cons i idxs ih =>
    cases ts with
    | nil => simp at hlen
    | cons t ts =>
      have ht := htags t (List.mem_cons_self t ts)
      have hlen2 : idxs.length = ts.length := by simpa using hlen
      have hrest : ∀ x ∈ ts, recognizedConstantTag x = false := fun x hx =>
        htags x (List.mem_cons_of_mem t hx)
      rw [loadLoop, if_neg (by simp [ht])]
      exact ih p ts hlen2 hrest

/-- Witness for the amended C3 at a concrete input: a two-slot stream of
the unrecognized tags 2 and 13 decodes to the unchanged empty pool. -/
theorem c3_unrecognized_tag_skipped_witness :
    (∀ t ∈ [2, 13], recognizedConstantTag t = false) ∧
    loadLoop poolEmpty [1, 2] [2, 13] = some poolEmpty :=
  ⟨by decide,
   c3_unrecognized_tag_skipped poolEmpty [1, 2] [2, 13] rfl (by decide)⟩

/-- The concrete stream for C6: declared count 4 (slots 1, 2, 3), entry
one an Integer, entry two a Long (which consumes slot 3 as its
placeholder), entry three an Integer record that the loop never reads. -/
def c6bytes : List Nat :=
  [0, 4, 3, 0, 0, 0, 1, 5, 0, 0, 0, 0, 0, 0, 0, 2, 3, 0, 0, 0, 3]

/-- The pool produced by decoding c6bytes. -/
def c6pool : ConstantPool := ⟨[(1, .integer 1), (2, .longC 2)]⟩

/-- Sorted list of the occupied pool indices. -/
def occupiedIndices (p : ConstantPool) : List Int :=
  sortInts (p.entries.map Prod.fst)

/-- C6 counterexample: the claim says the decoded pool occupies exactly
indices 1 and 3 with index 2 absent.  In the code the Long is stored at
its own slot 2 and the placeholder consumes slot 3: index 2 is occupied
by the Long and index 3 is the absent one. -/
theorem c6_long_placeholder_counterexample :
    poolEmpty.loadFromIo c6bytes = some c6pool ∧
    c6pool.get 2 none = some (Constant.longC 2) ∧
    c6pool.get 3 none = none :=
  ⟨rfl, rfl, rfl⟩

/-- C6 amended: a Long (tag 5) or Double (tag 6) constant consumes the
slot after its own as an unusable placeholder: decoding the three-slot
stream whose entry two is a Long yields a pool whose occupied indices are
exactly 1 and 2, with index 3 absent. -/
theorem c6_long_placeholder_amended :
    poolEmpty.loadFromIo c6bytes = some c6pool ∧
    occupiedIndices c6pool = [1, 2] :=
  ⟨rfl, rfl⟩

/-! Embedding of src/jawa/attributes/annotations.py. -/

/-- Test for the primitive scalar tags B C D F I J S Z s (byte values 66,
67, 68, 70, 73, 74, 83, 90, 115), the membership test of the source. -/
def isPrimTag (t : Nat) : Bool :=
  t == 66 || t == 67 || t == 68 || t == 70 || t == 73 || t == 74 ||
    t == 83 || t == 90 || t == 115

/-- The full recognized ElementValue tag set: the primitive tags plus
e (101), c (99), the at-sign (64) and the opening bracket (91). -/
def recognizedEVTag (t : Nat) : Bool :=
  isPrimTag t || t == 101 || t == 99 || t == 64 || t == 91

mutual
/-- The value slot of an ElementValue, one shape per tag family. -/
inductive EVal : Type where
  | vIdx (i : Nat) : EVal
  | vPair (a b : Nat) : EVal
  | vAnn (a : RVAnn) : EVal
  | vArr (vs : List ElementValue) : EVal

/-- ElementValue: the stored tag byte and the value slot populated by
unpack. -/
inductive ElementValue : Type where
  | mk (tag : Nat) (value : EVal) : ElementValue

/-- RuntimeVisibleAnnotation: the type index, the stored pair count read
from the header, and the ordered element value pairs. -/
inductive RVAnn : Type where
  | mk (typeIndex numPairs : Nat) (pairs : List (Nat × ElementValue)) : RVAnn
end

/-- Failure modes of the annotation codec: ValueError on an unknown tag,
struct.error on a short buffer, plus the fuel guard of the embedding. -/
inductive EVError : Type where
  | invalidTag
  | endOfInput
  | outOfFuel
deriving DecidableEq

/-- Modelling of unpack_from of one big-endian u16 at the head of a
buffer; it does not consume, the callers advance their skip counters. -/
def readU16 (s : List Nat) : Except EVError Nat :=
  match s with
  | a :: b :: _ => .ok (u16be a b)
  | _ => .error .endOfInput

mutual
/-- ElementValue.unpack: reads the tag byte, dispatches on it in source
order, stores the decoded value slot and returns the ElementValue with
the number of bytes consumed.  The fuel argument only bounds the
recursion of the embedding; the top-level wrappers supply enough for the
concrete inputs considered. -/
def evUnpack : Nat → List Nat → Except EVError (ElementValue × Nat)
  | 0, _ => .error .outOfFuel
  | fuel + 1, info =>
    match info with
    | [] => .error .endOfInput
    | tag :: _ =>
      if isPrimTag tag then do
        let v ← readU16 (info.drop 1)
        return (.mk tag (.vIdx v), 3)
      else if tag = 101 then do
        let a ← readU16 (info.drop 1)
        let b ← readU16 (info.drop 3)
        return (.mk tag (.vPair a b), 5)
      else if tag = 99 then do
        let v ← readU16 (info.drop 1)
        return (.mk tag (.vIdx v), 3)
      else if tag = 64 then do
        let r ← annUnpack fuel (info.drop 1)
        return (.mk tag (.vAnn r.1), 1 + r.2)
      else if tag = 91 then do
        let n ← readU16 (info.drop 1)
        let r ← evListUnpack fuel n (info.drop 3)
        return (.mk tag (.vArr r.1), 3 + r.2)
      else .error .invalidTag

/-- The element loop of the array branch of ElementValue.unpack: decodes
the given number of values, each from the buffer advanced by the previous
skip. -/
def evListUnpack : Nat → Nat → List Nat →
    Except EVError (List ElementValue × Nat)
  | 0, _, _ => .error .outOfFuel
  | _ + 1, 0, _ => .ok ([], 0)
  | fuel + 1, n + 1, info => do
    let r ← evUnpack fuel info
    let r2 ← evListUnpack fuel n (info.drop r.2)
    return (r.1 :: r2.1, r.2 + r2.2)

/-- The pair loop of RuntimeVisibleAnnotation.unpack: a u16 name index
then a recursive ElementValue decode, repeated. -/
def annPairsUnpack : Nat → Nat → List Nat →
    Except EVError (List (Nat × ElementValue) × Nat)
  | 0, _, _ => .error .outOfFuel
  | _ + 1, 0, _ => .ok ([], 0)
  | fuel + 1, n + 1, info => do
    let ni ← readU16 info
    let r ← evUnpack fuel (info.drop 2)
    let r2 ← annPairsUnpack fuel n (info.drop (2 + r.2))
    return ((ni, r.1) :: r2.1, 2 + r.2 + r2.2)

/-- RuntimeVisibleAnnotation.unpack: u16 type index, u16 pair count, then
that many pairs; returns the annotation and the bytes consumed. -/
def annUnpack : Nat → List Nat → Except EVError (RVAnn × Nat)
  | 0, _ => .error .outOfFuel
  | fuel + 1, info => do
    let ti ← readU16 info
    let np ← readU16 (info.drop 2)
    let r ← annPairsUnpack fuel np (info.drop 4)
    return (.mk ti np r.1, 4 + r.2)
end

/-- ElementValue.unpack applied to a whole buffer. -/
def ElementValue.unpack (info : List Nat) : Except EVError (ElementValue × Nat) :=
  evUnpack (info.length + 1) info

/-- The annotation loop of RuntimeVisibleAnnotationsAttribute.unpack. -/
def rvasLoop (fuel : Nat) : Nat → List Nat → Except EVError (List RVAnn)
  | 0, _ => .ok []
  | n + 1, info => do
    let r ← annUnpack fuel info
    let rest ← rvasLoop fuel n (info.drop r.2)
    return (r.1 :: rest)

/-- RuntimeVisibleAnnotationsAttribute.unpack: big-endian u16 count, then
that many annotation decodes over the successively sliced buffer. -/
def rvasUnpack (info : List Nat) : Except EVError (List RVAnn) :=
  match info with
  | n0 :: n1 :: rest => rvasLoop (info.length + 1) (u16be n0 n1) rest
  | _ => .error .endOfInput

/-- pack of one big-endian u16 as two bytes (the source raises for values
of 2^16 or more, which no decoded field reaches). -/
def u16bytes (v : Nat) : List Nat := [v % 65536 / 256, v % 256]

mutual
/-- ElementValue.info: the re-encoding property.  The array branch of the
source writes the count from the length of the stored value slot but then
iterates self dot underscore values, an attribute the class never assigns
(unpack stores into the value slot): the attribute lookup raises
AttributeError, so encoding an array ElementValue always fails and is
modelled as none.  A tag outside every branch falls through and yields
just the packed tag byte, as in the source.  A value slot not fitting the
tag would make the per-branch pack call of the source raise and is none. -/
def evInfo : ElementValue → Option (List Nat)
  | .mk tag v =>
    if isPrimTag tag then
      match v with
      | .vIdx i => some (tag :: u16bytes i)
      | _ => none
    else if tag = 101 then
      match v with
      | .vPair a b => some (tag :: (u16bytes a ++ u16bytes b))
      | _ => none
    else if tag = 99 then
      match v with
      | .vIdx i => some (tag :: u16bytes i)
      | _ => none
    else if tag = 64 then
      match v with
      | .vAnn a =>
        match annInfo a with
        | some r => some (tag :: r)
        | none => none
      | _ => none
    else if tag = 91 then none
    else some [tag]

/-- RuntimeVisibleAnnotation.info: header of the type index and the
stored pair count, then each pair as name index bytes followed by the
element value encoding. -/
def annInfo : RVAnn → Option (List Nat)
  | .mk ti np pairs =>
    match pairsInfo pairs with
    | some r => some (u16bytes ti ++ u16bytes np ++ r)
    | none => none

/-- The pair loop of RuntimeVisibleAnnotation.info. -/
def pairsInfo : List (Nat × ElementValue) → Option (List Nat)
  | [] => some []
  | (ni, ev) :: rest =>
    match evInfo ev with
    | some e =>
      match pairsInfo rest with
      | some r => some (u16bytes ni ++ e ++ r)
      | none => none
    | none => none
end

/-- Values that a Python attribute access named value can produce on the
objects reachable here: the numeric constant wrappers are the only pool
entries defining a value slot. -/
inductive PyVal : Type where
  | pyInt (v : Int)
  | pyFloat (raw : List Nat)
  | pyLong (v : Int)
  | pyDouble (raw : List Nat)
deriving DecidableEq

/-- Attribute lookup of value on a Constant: the Integer, Float, Long and
Double wrappers define a value slot; Utf8 entries are raw byte strings
and the remaining wrappers define no value attribute, so the access
fails. -/
def Constant.valueAttr : Constant → Option PyVal
  | .integer v => some (.pyInt v)
  | .floatC r => some (.pyFloat r)
  | .longC v => some (.pyLong v)
  | .doubleC r => some (.pyDouble r)
  | _ => none

/-- Attribute lookup of value on the result of a pool get with default
None: None itself has no value attribute. -/
def optValueAttr : Option Constant → Option PyVal
  | some c => c.valueAttr
  | none => none

/-- The possible results of the ElementValue value property. -/
inductive EVResolved : Type where
  | constR (c : Option Constant) : EVResolved
  | pairR (a b : Option Constant) : EVResolved
  | annR (a : RVAnn) : EVResolved
  | listR (vs : List ElementValue) : EVResolved

/-- ElementValue.value: primitive and class tags resolve the stored index
through the pool (default None); tag e resolves both indices to a tuple;
the at-sign and bracket tags return the stored wrapper object or list
unresolved.  An unknown tag raises ValueError; a value slot that does not
fit the tag would make the source fail inside the branch and is likewise
none (decode never constructs such values). -/
def ElementValue.value (pool : ConstantPool) : ElementValue → Option EVResolved
  | .mk tag v =>
    if isPrimTag tag then
      match v with
      | .vIdx i => some (.constR (pool.get (i : Int) none))
      | _ => none
    else if tag = 101 then
      match v with
      | .vPair a b =>
        some (.pairR (pool.get (a : Int) none) (pool.get (b : Int) none))
      | _ => none
    else if tag = 99 then
      match v with
      | .vIdx i => some (.constR (pool.get (i : Int) none))
      | _ => none
    else if tag = 64 then
      match v with
      | .vAnn a => some (.annR a)
      | _ => none
    else if tag = 91 then
      match v with
      | .vArr vs => some (.listR vs)
      | _ => none
    else none

/-- Attribute lookup of value on an ElementValue resolution result: a
resolved constant may itself carry a value attribute; None, tuples, the
annotation wrapper and plain lists have none. -/
def EVResolved.valueAttr : EVResolved → Option PyVal
  | .constR c => optValueAttr c
  | .pairR _ _ => none
  | .annR _ => none
  | .listR _ => none

/-- The body of the key_value_pairs generator for one stored pair: the
source yields the tuple of constants.get(name_index).value and
value.value.value, a value attribute access on both components. -/
def kvResolve (pool : ConstantPool) (p : Nat × ElementValue) :
    Option (PyVal × PyVal) := do
  let k ← optValueAttr (pool.get (p.1 : Int) none)
  let r ← p.2.value pool
  let v ← r.valueAttr
  return (k, v)

/-- The key_value_pairs generator of RuntimeVisibleAnnotation, fully
iterated: the per-pair resolutions in order, failing at the first pair
whose attribute accesses fail. -/
def kvLoop (pool : ConstantPool) : List (Nat × ElementValue) →
    Option (List (PyVal × PyVal))
  | [] => some []
  | p :: rest => do
    let kv ← kvResolve pool p
    let r ← kvLoop pool rest
    return (kv :: r)

/-- RuntimeVisibleAnnotation.key_value_pairs, fully iterated. -/
def RVAnn.keyValuePairs (pool : ConstantPool) : RVAnn →
    Option (List (PyVal × PyVal))
  | .mk _ _ pairs => kvLoop pool pairs

/-- RuntimeVisibleAnnotation.type: the source resolves the type index
through the pool with default None and then reads the value attribute of
the result. -/
def RVAnn.typeAttr (pool : ConstantPool) : RVAnn → Option PyVal
  | .mk ti _ _ => optValueAttr (pool.get (ti : Int) none)

/-- Modelled from the claim of C5, not from the source: iterating
key_value_pairs is claimed to yield, per stored pair, the name constant
resolved through the pool paired with the ElementValue value property one
level down. -/
def keyValuePairsClaim (pool : ConstantPool) : RVAnn →
    Option (List (Option Constant × EVResolved))
  | .mk _ _ pairs =>
    pairs.mapM (fun p => (p.2.value pool).map
      (fun r => (pool.get (p.1 : Int) none, r)))

/-- C2: on the bytes of an empty array (tag 91, count 0) decode succeeds,
but re-encoding the decoded ElementValue fails: the array encode branch of
the source iterates the never-assigned attribute underscore-values, so no
bytes are produced, let alone the original three.  A nested annotation
(tag 64) round-trips byte-exactly through decode and encode, isolating
the defect to the array branch. -/
theorem c2_array_encode_reads_wrong_field :
    ElementValue.unpack [91, 0, 0] = .ok (.mk 91 (.vArr []), 3) ∧
    evInfo (.mk 91 (.vArr [])) = none ∧
    ElementValue.unpack [64, 0, 5, 0, 0] =
      .ok (.mk 64 (.vAnn (.mk 5 0 [])), 5) ∧
    evInfo (.mk 64 (.vAnn (.mk 5 0 []))) = some [64, 0, 5, 0, 0] :=
  ⟨rfl, rfl, rfl, rfl⟩

/-- The pool of C4: index 1 holds the raw Utf8 bytes of Foo, index 2 a
Class constant whose name index is 1. -/
def fooPool : ConstantPool := ⟨[(1, .utf8 [70, 111, 111]), (2, .classRef 1)]⟩

/-- C4: decoding the attribute bytes 00 01 00 02 00 00 yields exactly one
annotation with type index 2 and no pairs — that part of the claim holds —
but reading its type property fails instead of producing Foo: the source
evaluates constants.get(2).value, and the ConstantClass wrapper of this
constants module defines no value attribute (its accessor is name), so
the access raises AttributeError.  The last two conjuncts record that the
pool is as the claim supposes and that the name accessor of the Class
constant does reach the Foo bytes. -/
theorem c4_type_resolution_attribute_error :
    rvasUnpack [0, 1, 0, 2, 0, 0] = .ok [.mk 2 0 []] ∧
    RVAnn.typeAttr fooPool (.mk 2 0 []) = none ∧
    fooPool.get 2 none = some (.classRef 1) ∧
    constantClassName fooPool 1 = some (.utf8 [70, 111, 111]) :=
  ⟨rfl, rfl, rfl, rfl⟩

/-- C8: decoding an ElementValue whose first byte is none of the
recognized tags fails with InvalidTag: no value is produced and no input
beyond the inspected tag byte is consumed, the error aborting before any
cursor advance. -/
theorem c8_unknown_ev_tag (t : Nat) (rest : List Nat)
    (h : recognizedEVTag t = false) :
    ElementValue.unpack (t :: rest) = .error .invalidTag := by
  simp only [recognizedEVTag, Bool.or_eq_false_iff] at h
  obtain ⟨⟨⟨⟨hp, h101⟩, h99⟩, h64⟩, h91⟩ := h
  show evUnpack (rest.length + 1 + 1) (t :: rest) = .error .invalidTag
  rw [evUnpack]
  rw [if_neg (by simp [hp]), if_neg (by simpa using h101),
    if_neg (by simpa using h99), if_neg (by simpa using h64),
    if_neg (by simpa using h91)]

/-- Witness for C8: the byte x (120) is not a recognized tag and its
decode fails with InvalidTag. -/
theorem c8_unknown_ev_tag_witness :
    recognizedEVTag 120 = false ∧
    ElementValue.unpack [120] = .error .invalidTag :=
  ⟨rfl, c8_unknown_ev_tag 120 [] rfl⟩

/-- The materialized key_value_pairs generator equals the monadic map of
the per-pair resolution. -/
theorem kvLoop_eq_mapM (pool : ConstantPool) (pairs : List (Nat × ElementValue)) :
    kvLoop pool pairs = pairs.mapM (kvResolve pool) := by
  induction pairs with
  | nil => rfl
  | cons p rest ih =>
    rw [kvLoop, List.mapM_cons, ih]

/-- If any stored pair fails to resolve, the whole iteration fails. -/
theorem kvLoop_none_of_mem (pool : ConstantPool)
    (pairs : List (Nat × ElementValue)) (p : Nat × ElementValue)
    (hp : p ∈ pairs) (hnone : kvResolve pool p = none) :
    kvLoop pool pairs = none := by
  induction pairs with
  | nil => cases hp
  | cons q rest ih =>
    rcases List.mem_cons.mp hp with rfl | hmem
    · simp [kvLoop, hnone]
    · cases hq : kvResolve pool q with
      | none => simp [kvLoop, hq]
      | some kv => simp [kvLoop, hq, ih hmem]

/-- The pool for the C5 counterexample: two raw Utf8 entries. -/
def abPool : ConstantPool := ⟨[(1, .utf8 [97]), (2, .utf8 [98])]⟩

/-- The annotation for the C5 counterexample: one pair, name index 1,
element value of primitive tag s (115) holding pool index 2. -/
def abAnn : RVAnn := .mk 9 1 [(1, .mk 115 (.vIdx 2))]

/-- C5 counterexample: the claim predicts that iterating key_value_pairs
yields the resolved name paired with the ElementValue value one level
down — as the claim-side reading keyValuePairsClaim does on this input —
but the source applies a further value attribute access to both
components (constants.get(name_index).value and value.value.value); on
the raw Utf8 entries of this pool both accesses fail, so the iteration
raises instead of yielding its pair. -/
theorem c5_key_value_pairs_counterexample :
    RVAnn.keyValuePairs abPool abAnn = none ∧
    keyValuePairsClaim abPool abAnn =
      some [(some (.utf8 [97]), .constR (some (.utf8 [98])))] :=
  ⟨rfl, rfl⟩

/-- C5 amended: iterating key_value_pairs yields, for each stored pair in
order, the value attribute of the pool entry at the name index paired
with the value attribute of the ElementValue resolved value — a second
value access, not one level only.  Equivalently it is the monadic map of
kvResolve over the stored pairs; it fails as soon as any stored pair
fails; and a pair whose ElementValue carries the nested annotation tag
(64) or the array tag (91) always fails, since the wrapper object and the
list carry no value attribute. -/
theorem c5_key_value_pairs_amended (pool : ConstantPool) (ti np : Nat)
    (pairs : List (Nat × ElementValue)) :
    (RVAnn.keyValuePairs pool (.mk ti np pairs) =
      pairs.mapM (kvResolve pool)) ∧
    (∀ (ni : Nat) (a : RVAnn),
      kvResolve pool (ni, .mk 64 (.vAnn a)) = none) ∧
    (∀ (ni : Nat) (vs : List ElementValue),
      kvResolve pool (ni, .mk 91 (.vArr vs)) = none) ∧
    (∀ p ∈ pairs, kvResolve pool p = none →
      RVAnn.keyValuePairs pool (.mk ti np pairs) = none) := by
  refine ⟨kvLoop_eq_mapM pool pairs, ?_, ?_, ?_⟩
  · intro ni a
    cases hk : optValueAttr (pool.get (ni : Int) none) with
    | none => simp [kvResolve, hk]
    | some k =>
      simp [kvResolve, hk, ElementValue.value, EVResolved.valueAttr, isPrimTag]
  · intro ni vs
    cases hk : optValueAttr (pool.get (ni : Int) none) with
    | none => simp [kvResolve, hk]
    | some k =>
      simp [kvResolve, hk, ElementValue.value, EVResolved.valueAttr, isPrimTag]
  · intro p hp hnone
    exact kvLoop_none_of_mem pool pairs p hp hnone

/-- Witness for the amended C5 at concrete inputs: a singleton pair list
with a nested-annotation element value resolves to a failure, and the
whole iteration fails on it. -/
theorem c5_key_value_pairs_amended_witness :
    RVAnn.keyValuePairs abPool (.mk 9 1 [(1, .mk 64 (.vAnn (.mk 5 0 [])))]) =
      [((1 : Nat), ElementValue.mk 64 (.vAnn (.mk 5 0 [])))].mapM
        (kvResolve abPool) ∧
    kvResolve abPool (1, .mk 64 (.vAnn (.mk 5 0 []))) = none ∧
    kvResolve abPool (1, .mk 91 (.vArr [])) = none ∧
    RVAnn.keyValuePairs abPool
      (.mk 9 1 [(1, .mk 64 (.vAnn (.mk 5 0 [])))]) = none :=
  ⟨(c5_key_value_pairs_amended abPool 9 1
      [(1, .mk 64 (.vAnn (.mk 5 0 [])))]).1,
   (c5_key_value_pairs_amended abPool 9 1
      [(1, .mk 64 (.vAnn (.mk 5 0 [])))]).2.1 1 (.mk 5 0 []),
   (c5_key_value_pairs_amended abPool 9 1
      [(1, .mk 64 (.vAnn (.mk 5 0 [])))]).2.2.1 1 [],
   (c5_key_value_pairs_amended abPool 9 1
      [(1, .mk 64 (.vAnn (.mk 5 0 [])))]).2.2.2 _
     (List.mem_singleton.mpr rfl)
     ((c5_key_value_pairs_amended abPool 9 1
        [(1, .mk 64 (.vAnn (.mk 5 0 [])))]).2.1 1 (.mk 5 0 []))⟩

end Jawa
